import Mathlib

/-!
Verification development for the viam-ufactory-xarm driver.

The Go source under `arm/` is shallowly embedded here:

* Floating-point (`float64`) quantities are modelled with exact rational
  arithmetic over a kernel-computable rational type `Q` (Mathlib's `ℚ`
  does not reduce in the kernel because `Nat.gcd` is defined by
  well-founded recursion).  Where the source computes with `float64`,
  the embedding computes the same expressions exactly; the branch
  conditions of the translated algorithms all carry slack (the source's
  own `1e-6` epsilons, or gaps of many orders of magnitude) that dwarfs
  the worst-case double-rounding drift of the original, so branch
  decisions and hence all discrete results (step counts, classifications)
  agree with the `float64` program.
* `math.Pi` is the exact rational value of the `float64` constant.
* Device and socket I/O is modelled by explicit state passing plus
  oracles describing the outcome of each wire primitive.
* Loops without a structural measure take a fuel argument and return
  `Option`; `none` (fuel exhaustion) never occurs in the proved runs.
-/

/-! ## Kernel-computable rational arithmetic

Exact rational numbers as an integer numerator and a natural
denominator, normalized through a fuel-driven Euclidean gcd that uses
only kernel-accelerated `Nat` primitives. -/

/-- Euclidean gcd with explicit fuel; `gcdFuel` is large enough for every
number appearing in this development (fuel is consumed once per
`Nat.mod` step). -/
def gcdF : Nat → Nat → Nat → Nat
  | 0, _, b => b
  | _ + 1, 0, b => b
  | fuel + 1, a, b => gcdF fuel (b % a) a

/-- Fuel used for every gcd normalization: Euclid takes at most
`O(log min(a,b))` steps, so 4000 covers numbers of thousands of bits. -/
def gcdFuel : Nat := 4000

/-- Exact rational: numerator and (positive, after `qmk`) denominator. -/
structure Q where
  n : Int
  d : Nat
  deriving DecidableEq, Repr

/-- Build a normalized rational from an integer fraction; a zero
denominator (which cannot arise from the embedded code on the inputs we
run it on) collapses to 0. -/
def qmk (n d : Int) : Q :=
  if d = 0 then ⟨0, 1⟩
  else
    let n' := if d < 0 then -n else n
    let dn : Nat := d.natAbs
    let g := gcdF gcdFuel n'.natAbs dn
    ⟨n' / (g : Int), dn / g⟩

def qofInt (n : Int) : Q := ⟨n, 1⟩

def q0 : Q := ⟨0, 1⟩

def q1 : Q := ⟨1, 1⟩

def qadd (x y : Q) : Q := qmk (x.n * y.d + y.n * x.d) (x.d * y.d)

def qsub (x y : Q) : Q := qmk (x.n * y.d - y.n * x.d) (x.d * y.d)

def qmul (x y : Q) : Q := qmk (x.n * y.n) (x.d * y.d)

def qdiv (x y : Q) : Q := qmk (x.n * y.d) (x.d * y.n)

def qneg (x : Q) : Q := ⟨-x.n, x.d⟩

/-- Absolute value (`math.Abs`). -/
def qabs (x : Q) : Q := ⟨(x.n.natAbs : Int), x.d⟩

/-- Strict order by cross multiplication (denominators are positive for
every value produced by the embedding). -/
def qlt (x y : Q) : Bool := x.n * (y.d : Int) < y.n * (x.d : Int)

def qle (x y : Q) : Bool := !(qlt y x)

def qeqb (x y : Q) : Bool := x.n * (y.d : Int) == y.n * (x.d : Int)

/-- Truncation toward zero: the semantics of Go's `int(f)` conversion for
a `float64` whose value fits in an `int`. -/
def qtrunc (x : Q) : Int :=
  if 0 ≤ x.n then (x.n.toNat / x.d : Nat) else -((((-x.n).toNat) / x.d : Nat) : Int)

/-! ## Constants of the driver (`arm/xarm.go`) -/

/-- Exact rational value of the `float64` constant `math.Pi`. -/
def piF : Q := ⟨884279719003555, 281474976710656⟩

/-- Degrees to radians, as `utils.DegToRad`: `angle * math.Pi / 180`. -/
def degToRad (d : Q) : Q := qdiv (qmul d piF) (qofInt 180)

/-- Constant `maxSpeed = 180.` (degrees per second). -/
def maxSpeed : Q := qofInt 180

/-- Constant `maxAccel = 1145.` (degrees per second per second). -/
def maxAccel : Q := qofInt 1145

/-- Constant `defaultSpeed = maxSpeed / 3` (degrees per second): the
untyped Go constant is exactly 60, representable in `float64`. -/
def defaultSpeed : Q := qdiv maxSpeed (qofInt 3)

/-- Constant `defaultAccel = maxAccel / 3` (degrees per second per
second): the untyped Go constant `1145/3` rounds, where the test
converts it to `float64`, to `6714351006952107 * 2^-44`
(≈ 381.6666666666667). -/
def defaultAccel : Q := ⟨6714351006952107, 17592186044416⟩

/-- Constant `defaultMoveHz = 100.`. -/
def defaultMoveHz : Q := qofInt 100

/-- Constant `interwaypointAccel = 600.` (degrees per second per second;
`createRawJointSteps` divides this raw value by `moveHZ` without a
radian conversion, exactly as the source does). -/
def interwaypointAccel : Q := qofInt 600

/-- Epsilon `1e-6` used by the displacement comparisons. -/
def epsQ : Q := ⟨1, 1000000⟩

/-! ## Trajectory generator (`createRawJointSteps`, `arm/comm.go`)

A joint configuration is a list of joint angles in radians, one entry
per degree of freedom. -/

abbrev JointConf := List Q

/-- Largest per-joint absolute displacement between two configurations —
the closure `floatMaxDiff` of `createRawJointSteps` (ranges over `to`,
indexing `from`; call sites always pass equal lengths, which `zip`
realizes). -/
def floatMaxDiff (fromC toC : JointConf) : Q :=
  (toC.zip fromC).foldl
    (fun maxVal p =>
      let diff := qabs (qsub p.1 p.2)
      if qlt maxVal diff then diff else maxVal)
    q0

/-- Modelled from the spec: the external kinematic model's
configuration-interpolation capability (`x.model.Interpolate`, provided
by the `referenceframe` collaborator, absent from this repository).  For
the in-limit revolute-joint configurations exercised here it is
per-joint linear interpolation and never fails. -/
def modelInterpolate (fromC toC : JointConf) (by_ : Q) : JointConf :=
  (fromC.zip toC).map (fun p => qadd p.1 (qmul (qsub p.2 p.1) by_))

/-- Accumulator of the `accelCurve` closure: current speed, the outer
mutable `accelStep` variable (shared between both `accelCurve` calls),
and the steps emitted so far. -/
structure CurveAcc where
  currSpeed : Q
  accelStep : Q
  steps : List JointConf
  deriving Repr

/-- Inner `for currDiff := …; currDiff > 1e-6; …` loop of `accelCurve`
for one target configuration.  Returns the updated accumulator and
`true` when the `currSpeed >= stopVel-1e-6` early return fired (ending
the whole curve), `false` when the segment finished or a `break` ran;
`none` only on fuel exhaustion.  `stopVel? = none` models
`math.Inf(1)` (the comparison with `stopVel - 1e-6` is then always
false). -/
def curveInner (speed iwStep moveHZ : Q) (stopVel? : Option Q) (toInputs : JointConf) :
    Nat → CurveAcc → JointConf → JointConf → Option (CurveAcc × Bool)
  | 0, _, _, _ => none
  | fuel + 1, acc, lastInputs, runningFrom =>
    let currDiff := floatMaxDiff runningFrom toInputs
    if qlt epsQ currDiff then
      if qle acc.currSpeed q0 then some (acc, false)   -- if currSpeed <= 0 { break }
      else
        let nSteps := qmul (qdiv currDiff acc.currSpeed) moveHZ
        -- stepSize := 1.; if nSteps <= 1 { if currDiff == 0 { break }; stepSize = nSteps }
        if qle nSteps q1 ∧ qeqb currDiff q0 then some (acc, false)
        else
          let stepSize := if qle nSteps q1 then nSteps else q1
          let nextInputs := modelInterpolate lastInputs toInputs (qdiv stepSize nSteps)
          let steps' := acc.steps ++ [nextInputs]
          let upd : Q × Q :=
            if qlt acc.currSpeed speed then
              let cs := qadd acc.currSpeed (qmul acc.accelStep stepSize)
              (if qlt speed cs then speed else cs, acc.accelStep)
            else (acc.currSpeed, iwStep)
          let acc' : CurveAcc := ⟨upd.1, upd.2, steps'⟩
          let stop := match stopVel? with
            | some sv => qle (qsub sv epsQ) acc'.currSpeed
            | none => false
          if stop then some (acc', true)
          else curveInner speed iwStep moveHZ stopVel? toInputs fuel acc' nextInputs nextInputs
    else some (acc, false)

/-- Outer `for i, toInputs := range allInputSteps` loop of `accelCurve`:
threads the accumulator through the segments, stopping (with the
current index, as the source returns `i`) when the inner loop reports
the early return. -/
def curveOuter (speed iwStep moveHZ : Q) (stopVel? : Option Q) (fuel : Nat) :
    List JointConf → Nat → CurveAcc → JointConf → JointConf → Option (Nat × CurveAcc)
  | [], i, acc, _, _ => some (i, acc)
  | toInputs :: rest, i, acc, lastInputs, fromC =>
    match curveInner speed iwStep moveHZ stopVel? toInputs fuel acc lastInputs fromC with
    | none => none
    | some (acc', true) => some (i, acc')
    | some (acc', false) =>
      curveOuter speed iwStep moveHZ stopVel? fuel rest (i + 1) acc' toInputs toInputs

/-- Closure `accelCurve` of `createRawJointSteps`: ramp the speed from
`accelStep0` (the current value of the outer `accelStep` variable, which
seeds `currSpeed`) along `allInputSteps`, stopping at `stopVel?`. -/
def accelCurve (speed iwStep moveHZ : Q) (accelStep0 : Q) (startInputs : JointConf)
    (allInputSteps : List JointConf) (stopVel? : Option Q) (fuel : Nat) :
    Option (Nat × CurveAcc) :=
  curveOuter speed iwStep moveHZ stopVel? fuel allInputSteps 0
    ⟨accelStep0, accelStep0, []⟩ startInputs startInputs

/-- Builds `accelInputSteps`: the leading waypoints, replaced from index
`accelStop` on by the final deceleration step (`decelSteps[len-1]`;
indexing an empty `decelSteps` there would panic in Go, modelled as
`none`).  `accelStop` is a Go `int` and may be negative, hence `Int`. -/
def buildAccelInputSteps (accelStop : Int) (decelSteps : List JointConf) :
    List JointConf → Nat → Option (List JointConf)
  | [], _ => some []
  | s :: rest, i =>
    if (i : Int) = accelStop then
      match decelSteps.getLast? with
      | none => none
      | some l => some [l]
    else
      (buildAccelInputSteps accelStop decelSteps rest (i + 1)).map (s :: ·)

/-- Pre-processing fold of `createRawJointSteps`: accumulates
`stepTotal` and `displacementTotal` over the waypoint transitions. -/
def stepTotals (speed moveHZ : Q) : List JointConf → JointConf → Q × Q → Q × Q
  | [], _, acc => acc
  | toInputs :: rest, fromC, (stepTotal, displacementTotal) =>
    let maxVal := floatMaxDiff fromC toInputs
    let nSteps := qmul (qdiv (qabs maxVal) speed) moveHZ
    stepTotals speed moveHZ rest toInputs (qadd stepTotal nSteps, qadd displacementTotal maxVal)

/-- Embedding of `createRawJointSteps` (`arm/comm.go:484`), with the
configured `speed`/`acceleration` snapshot passed explicitly (the claims
run it with `opts = nil`, so the option overrides are not modelled) and
`math.Sqrt` — an external library function that the runs below either
never reach or reach only at 0 — passed as a parameter. -/
def createRawJointSteps (sqrtFn : Q → Q) (speed acceleration moveHZ : Q)
    (startInputs : JointConf) (inputSteps : List JointConf) (fuel : Nat) :
    Option (List JointConf) :=
  let accelStep := qdiv acceleration moveHZ
  let interwaypointAccelStep := qdiv interwaypointAccel moveHZ
  let totals := stepTotals speed moveHZ inputSteps startInputs (q0, q0)
  let stepTotal := totals.1
  let displacementTotal := totals.2
  let nominalAccelSteps : Int := qtrunc (qmul (qdiv speed acceleration) moveHZ)
  let nominalAccelSteps : Int :=
    if qlt (qmul stepTotal ⟨95, 100⟩) (qofInt nominalAccelSteps) then
      qtrunc (qmul (qmul ⟨95, 100⟩ (sqrtFn (qdiv displacementTotal acceleration))) moveHZ)
    else nominalAccelSteps
  let maxVel := qmul (qdiv (qofInt nominalAccelSteps) moveHZ) acceleration
  let inputStepsReversed := inputSteps.reverse ++ [startInputs]
  match accelCurve speed interwaypointAccelStep moveHZ accelStep
      (inputStepsReversed.headD startInputs) inputStepsReversed (some maxVel) fuel with
  | none => none
  | some (decelStart, decelAcc) =>
    let decelSteps := decelAcc.steps
    let accelStop : Int := (inputSteps.length : Int) - (decelStart : Int)
    match buildAccelInputSteps accelStop decelSteps inputSteps 0 with
    | none => none
    | some accelInputSteps =>
      match accelCurve speed interwaypointAccelStep moveHZ decelAcc.accelStep
          startInputs accelInputSteps none fuel with
      | none => none
      | some (_, accelAcc) =>
        some (accelAcc.steps ++ decelSteps.dropLast.reverse)

/-! ## Error and state decoder (`arm/comm.go`)

The fixed controller-box error and warning tables, with the collision
code `errCodeCollision = 0x1F`. -/

def errCodeCollision : Nat := 0x1F

/-- Table `armBoxErrorMap` (code, message). -/
def armBoxErrorMap : List (Nat × String) := [
  (0x01, "xArm: Emergency Stop Button Pushed In"),
  (0x02, "xArm: Emergency IO Triggered"),
  (0x03, "xArm: Emergency Stop 3-State Switch Pressed"),
  (0x0B, "xArm: Power Cycle Required"),
  (0x0C, "xArm: Power Cycle Required"),
  (0x0D, "xArm: Power Cycle Required"),
  (0x0E, "xArm: Power Cycle Required"),
  (0x0F, "xArm: Power Cycle Required"),
  (0x10, "xArm: Power Cycle Required"),
  (0x11, "xArm: Power Cycle Required"),
  (0x13, "xArm: Gripper Communication Error"),
  (0x15, "xArm: Kinematic Error"),
  (0x16, "xArm: Self Collision Error"),
  (0x17, "xArm: Joint Angle Exceeds Limit"),
  (0x18, "xArm: Speed Exceeds Limit"),
  (0x19, "xArm: Planning Error"),
  (0x1A, "xArm: Linux RT Error"),
  (0x1B, "xArm: Command Reply Error"),
  (0x1C, "xArm: End Module Communication Error"),
  (0x1D, "xArm: Other Errors"),
  (0x1E, "xArm: Feedback Speed Exceeds Limit"),
  (0x1F, "xArm: Collision Caused Abnormal Current"),
  (0x20, "xArm: Three-point Drawing Circle Calculation Error"),
  (0x21, "xArm: Abnormal Arm Current"),
  (0x22, "xArm: Recording Timeout"),
  (0x23, "xArm: Safety Boundary Limit"),
  (0x24, "xArm: Delay Command Limit Exceeded"),
  (0x25, "xArm: Abnormal Motion in Manual Mode"),
  (0x26, "xArm: Abnormal Joint Angle"),
  (0x27, "xArm: Abnormal Communication Between Power Boards")]

/-- Table `armBoxWarnMap` (code, message). -/
def armBoxWarnMap : List (Nat × String) := [
  (0x0B, "xArm Warning: Buffer Overflow"),
  (0x0C, "xArm Warning: Command Parameter Abnormal"),
  (0x0D, "xArm Warning: Unknown Command"),
  (0x0E, "xArm Warning: Command No Solution")]

/-- Go map lookup `msg, ok := m[code]`. -/
def lookupCode (m : List (Nat × String)) (c : Nat) : Option String :=
  (m.find? (fun p => p.1 == c)).map (fun p => p.2)

/-- Result of `decodeError(params)`: the combined recognized-message
error (an absent code contributes its zero-value `""` message, exactly
as the Go map lookup does), or the distinct "xArm: UNKNOWN ERROR". -/
inductive DecodedError
  | recognized (errMsg warnMsg : String)
  | unknownCode
  deriving DecidableEq, Repr

/-- Embedding of `decodeError` (`arm/comm.go:274`). -/
def decodeError (errCode warnCode : Nat) : DecodedError :=
  let errMsg? := lookupCode armBoxErrorMap errCode
  let warnMsg? := lookupCode armBoxWarnMap warnCode
  if errMsg?.isSome || warnMsg?.isSome then
    .recognized (errMsg?.getD "") (warnMsg?.getD "")
  else .unknownCode

/-- Typed failure surfaced by `send` when the response state byte has
the error/warning bits set. -/
inductive SendFailure
  | collision
  | device (e : DecodedError)
  deriving DecidableEq, Repr

/-- Error-branch of `send` (`arm/comm.go:160-175`) once the detailed
error report `{errCode, warnCode}` has been fetched: the returned typed
failure together with whether `resetErrorState` (clear-error,
clear-warning, set servo motion mode, set motion state 0) was run. -/
def sendErrorPath (errCode warnCode : Nat) : SendFailure × Bool :=
  if errCode = errCodeCollision then (.collision, false)
  else (.device (decodeError errCode warnCode), true)

/-! ## Command codec (`cmd.bytes` and `responseInLock`, `arm/comm.go`) -/

/-- Wire frame: transaction id and protocol id are `uint16`, the
register a byte, parameters a byte sequence (the numeric fields are
naturals carrying their type ranges as hypotheses where needed). -/
structure WireCmd where
  tid : Nat
  prot : Nat
  reg : Nat
  params : List Nat
  deriving DecidableEq, Repr

/-- Serialization `binary.BigEndian.PutUint16`. -/
def u16be (v : Nat) : List Nat := [(v % 65536) / 256, v % 256]

/-- Embedding of `cmd.bytes` (`arm/comm.go:126`): tid, protocol id and
the computed payload length `1+uint16(len(params))` big-endian, the
register byte, then the parameters. -/
def cmdBytes (c : WireCmd) : List Nat :=
  u16be c.tid ++ u16be c.prot ++ u16be ((1 + c.params.length) % 65536) ++ [c.reg] ++ c.params

/-- Behaviour of `utils.ReadBytes(ctx, conn, n)` over the bytes still
available on the connection: exactly `n` bytes or failure. -/
def readBytes (n : Nat) (bs : List Nat) : Option (List Nat × List Nat) :=
  if bs.length < n then none else some (bs.take n, bs.drop n)

/-- Embedding of the parsing performed by `responseInLock`
(`arm/comm.go:206`): a 7-byte header (tid, protocol, length, register),
then `int(length-1)` parameter bytes, `length-1` computed in `uint16`
arithmetic. -/
def parseResponse (bs : List Nat) : Option WireCmd :=
  (readBytes 7 bs).bind (fun hr =>
    let buf := hr.1
    let tid := buf.getD 0 0 * 256 + buf.getD 1 0
    let prot := buf.getD 2 0 * 256 + buf.getD 3 0
    let reg := buf.getD 6 0
    let length := buf.getD 4 0 * 256 + buf.getD 5 0
    (readBytes ((length + 65535) % 65536) hr.2).map (fun pr => ⟨tid, prot, reg, pr.1⟩))

/-! ## Gripper controller (`myGripper.goToPosition`, `arm/gripper.go:277`)

The loop polls the gripper position every 10ms; the environment is
abstracted as the sequence of polled positions `poll i` and the elapsed
time `elapsed i` (in seconds) observed by the timeout check of the i-th
iteration. -/

/-- Goal-tolerance condition `math.Abs(float64(pos-goal)) <= 6`. -/
def gripHit (goal : Int) (poll : Nat → Int) (i : Nat) : Bool :=
  (poll i - goal).natAbs ≤ 6

/-- Timeout condition `time.Since(start) > 2*time.Second`. -/
def gripTimeout (elapsed : Nat → Q) (i : Nat) : Bool :=
  qlt (qofInt 2) (elapsed i)

/-- Value of the loop variable `old` at the start of iteration `i`:
`-1` initially, afterwards the previous poll. -/
def oldAt (poll : Nat → Int) : Nat → Int
  | 0 => -1
  | i + 1 => poll i

/-- Stall condition `old >= 0 && math.Abs(float64(pos-old)) <= 3` as it
evaluates at iteration `i`. -/
def gripStall (poll : Nat → Int) (i : Nat) : Bool :=
  decide (0 ≤ oldAt poll i) && ((poll i - oldAt poll i).natAbs ≤ 3)

/-- Any of the three loop-exit conditions at iteration `i`. -/
def gripStop (goal : Int) (poll : Nat → Int) (elapsed : Nat → Q) (i : Nat) : Bool :=
  gripHit goal poll i || gripStall poll i || gripTimeout elapsed i

/-- Polling loop of `goToPosition`: returns `Except.ok` with the last
polled position, or `Except.error (goal, elapsed)` for the
`"goToPosition %d timed out after: %v"` failure.  The checks happen in
source order: goal tolerance, stall, then (after `old = pos`) the
timeout. -/
def goToPositionLoop (goal : Int) (poll : Nat → Int) (elapsed : Nat → Q) :
    Nat → Nat → Int → Option (Except (Int × Q) Int)
  | 0, _, _ => none
  | fuel + 1, i, old =>
    let pos := poll i
    if (pos - goal).natAbs ≤ 6 then some (.ok pos)
    else if 0 ≤ old ∧ (pos - old).natAbs ≤ 3 then some (.ok pos)
    else if qlt (qofInt 2) (elapsed i) then some (.error (goal, elapsed i))
    else goToPositionLoop goal poll elapsed fuel (i + 1) pos

/-- Embedding of the polling part of `goToPosition` (after the
`move_gripper` command has been issued): `old` starts at `-1`. -/
def goToPosition (goal : Int) (poll : Nat → Int) (elapsed : Nat → Q) (fuel : Nat) :
    Option (Except (Int × Q) Int) :=
  goToPositionLoop goal poll elapsed fuel 0 (-1)

/-! ## Transport (`writeBytes` / `responseInLock`, `arm/comm.go:180-223`)

One wire call under the serialization lock, against an oracle recording
whether each primitive succeeds and which bytes arrive. -/

/-- Wire primitives, in the order a call may perform them. -/
inductive WireEv
  | dial
  | deadline
  | write
  | readHeader
  | readParams
  deriving DecidableEq, Repr

/-- Outcome oracle for one call: `dialOK` covers `connect` (dial plus
the start handshake), `deadlineOK` the `SetDeadline` call, `writeOK`
the `Write`, and `incoming` the bytes the connection delivers before the
deadline would expire. -/
structure WireOracle where
  dialOK : Bool
  deadlineOK : Bool
  writeOK : Bool
  incoming : List Nat

/-- Result of one wire call: the connection state left behind (`conn =
false` models `x.conn = nil`), the call's outcome, and the trace of
attempted primitives. -/
structure WireCall where
  conn : Bool
  res : Except String WireCmd
  trace : List WireEv
  deriving Repr

/-- Embedding of `responseInLock` (`arm/comm.go:206`): a failed header
or params read runs `resetConnection` (conn closed and nulled) and
surfaces the error. -/
def responseInLockM (o : WireOracle) : WireCall :=
  match readBytes 7 o.incoming with
  | none => ⟨false, .error "read header", [.readHeader]⟩
  | some (buf, rest) =>
    let length := buf.getD 4 0 * 256 + buf.getD 5 0
    match readBytes ((length + 65535) % 65536) rest with
    | none => ⟨false, .error "read params", [.readHeader, .readParams]⟩
    | some (params, _) =>
      ⟨true,
       .ok ⟨buf.getD 0 0 * 256 + buf.getD 1 0, buf.getD 2 0 * 256 + buf.getD 3 0,
            buf.getD 6 0, params⟩,
       [.readHeader, .readParams]⟩

/-- Embedding of `writeBytes` (`arm/comm.go:180`): under the lock, dial
on demand when `x.conn == nil` (failure resets the connection and
returns), then set the 5s deadline, write the frame, and read the
response; every failure resets the connection (closed and nulled) and
surfaces an error with no retry inside the call. -/
def writeBytesM (connected : Bool) (o : WireOracle) (_c : WireCmd) : WireCall :=
  let dialTrace : List WireEv := if connected then [] else [.dial]
  if ¬connected ∧ ¬(o.dialOK = true) then ⟨false, .error "connect", dialTrace⟩
  else if ¬(o.deadlineOK = true) then ⟨false, .error "set deadline", dialTrace ++ [.deadline]⟩
  else if ¬(o.writeOK = true) then ⟨false, .error "write", dialTrace ++ [.deadline, .write]⟩
  else
    let r := responseInLockM o
    ⟨r.conn, r.res, dialTrace ++ [.deadline, .write] ++ r.trace⟩

/-- Decides whether an `Except` is the error case. -/
def exceptErrored : Except String WireCmd → Bool
  | .error _ => true
  | .ok _ => false

/-! ## Shutdown path (`xArm.Close` and the closed check of `send`,
`arm/comm.go:145-148, 376-400`) -/

/-- Device-side motion flags touched by the shutdown commands. -/
structure DeviceSt where
  brakesEngaged : Bool
  servosEnabled : Bool
  motionState : Nat
  deriving DecidableEq, Repr

/-- Driver state for the shutdown path. -/
structure ArmSt where
  closed : Bool
  conn : Bool
  device : DeviceSt
  deriving DecidableEq, Repr

/-- Embedding of `send` for a control command against a healthy,
acknowledging device: the very first thing `send` does is fail with
`errors.New("closed")` when the closed flag is set; otherwise the
device applies the command's effect. -/
def sendCtl (st : ArmSt) (eff : DeviceSt → DeviceSt) : ArmSt × Except String Unit :=
  if st.closed then (st, .error "closed")
  else ({st with device := eff st.device}, .ok ())

/-- Model of `toggleBrake(ctx, disable)`: `enByte = 1` disengages the
brakes, `0` engages them. -/
def toggleBrakeM (st : ArmSt) (disable : Bool) : ArmSt × Except String Unit :=
  sendCtl st (fun d => {d with brakesEngaged := !disable})

/-- Model of `toggleServos(ctx, enable)`. -/
def toggleServosM (st : ArmSt) (enable : Bool) : ArmSt × Except String Unit :=
  sendCtl st (fun d => {d with servosEnabled := enable})

/-- Model of `setMotionState(ctx, state)`. -/
def setMotionStateM (st : ArmSt) (state : Nat) : ArmSt × Except String Unit :=
  sendCtl st (fun d => {d with motionState := state})

/-- Embedding of `xArm.Close` (`arm/comm.go:376`): store the closed
flag, return nil when no connection is open, otherwise engage brakes,
disable servos, set motion state 4 and close the socket — each through
`send`, which already sees the closed flag. -/
def closeM (st : ArmSt) : ArmSt × Except String Unit :=
  let st := {st with closed := true}
  if ¬st.conn then (st, .ok ())
  else
    match toggleBrakeM st false with
    | (st, .error e) => (st, .error e)
    | (st, .ok _) =>
      match toggleServosM st false with
      | (st, .error e) => (st, .error e)
      | (st, .ok _) =>
        match setMotionStateM st 4 with
        | (st, .error e) => (st, .error e)
        | (st, .ok _) => ({st with conn := false}, .ok ())

/-! ## Command surface (`xArm.DoCommand`, `arm/xarm.go:322`)

A `map[string]interface{}` command is an association list of keys to
dynamic values; the handler probes the fixed keys below and ignores
everything else.  Device I/O performed by a dispatched command is
recorded as an effect against a healthy, acknowledging device (the
gripper-position and load read-backs are oracles). -/

/-- Dynamic (`interface{}`) command values: JSON-decoded commands carry
numbers as `float64`, booleans, strings, or something else. -/
inductive GoVal
  | vF (q : Q)
  | vB (b : Bool)
  | vS (s : String)
  | vOther
  deriving DecidableEq, Repr

/-- Association-list command map with Go map lookup. -/
abbrev CmdMap := List (String × GoVal)

def lookupKey (m : CmdMap) (k : String) : Option GoVal :=
  (m.find? (fun p => p.1 == k)).map (fun p => p.2)

/-- Typed counterparts of the error returns of `DoCommand`. -/
inductive DoErr
  | moveGripperInvalid (v : GoVal)
  | assertTypeNotFloat (v : GoVal)
  | speedNonPositive
  | accelNonPositive
  | grabVacuumNotBool
  | openVacuumNotBool
  | loadReadFailed
  | commandNotFound
  deriving DecidableEq, Repr

/-- Wire work performed by a dispatched command. -/
inductive ArmEffect
  | setupGripper
  | setGripperPosition (pos : Nat)
  | getGripperPosition
  | getLoad
  | grabVacuum
  | openVacuum
  deriving DecidableEq, Repr

/-- Go's non-constant `uint32(f)` conversion of a `float64`: truncation
toward zero; for values outside `[0, 2^32)` the result is
implementation-dependent, modelled here as the amd64 behaviour
(truncate to an integer, take the low 32 bits). -/
def goU32 (q : Q) : Nat := ((qtrunc q) % (4294967296 : Int)).toNat

/-- Accumulator mirroring `resp`, the mutated configuration, the
effects, and the `validCommand` flag of `DoCommand`. -/
structure DoSt where
  resp : List (String × GoVal)
  speed : Q
  acceleration : Q
  effects : List ArmEffect
  valid : Bool
  deriving DecidableEq, Repr

/-- Branch `if val, ok := cmd["move_gripper"]; ok` of `DoCommand`:
`setupGripper` runs before validation; the value must be a `float64`
and `-10 <= position <= 850`, else the
"must move gripper to an int between 0 and 840" error; an accepted
value is converted by `uint32(position)` and sent. -/
def doMoveGripper (st : DoSt) : Option GoVal → Except DoErr DoSt
  | none => .ok st
  | some val =>
    let st := {st with effects := st.effects ++ [ArmEffect.setupGripper]}
    match val with
    | .vF position =>
      if qlt position (qofInt (-10)) || qlt (qofInt 850) position then
        .error (.moveGripperInvalid val)
      else
        .ok {st with effects := st.effects ++ [ArmEffect.setGripperPosition (goU32 position)],
                     valid := true}
    | v => .error (.moveGripperInvalid v)

/-- Branch for `get_gripper` (any value): read the position and report
it as `resp["gripper_position"]`. -/
def doGetGripper (gripPos : Q) (st : DoSt) : Option GoVal → Except DoErr DoSt
  | none => .ok st
  | some _ =>
    .ok {st with effects := st.effects ++ [ArmEffect.getGripperPosition],
                 resp := st.resp ++ [("gripper_position", GoVal.vF gripPos)],
                 valid := true}

/-- Branch for `load` (any value): `setupGripper`, then `getLoad`; the
handler then looks a `"loads"` entry up in the result (oracle
`loadInfo?`), failing with "could not read loadInformation" when it is
absent. -/
def doLoad (loadInfo? : Option GoVal) (st : DoSt) : Option GoVal → Except DoErr DoSt
  | none => .ok st
  | some _ =>
    let st := {st with effects := st.effects ++ [ArmEffect.setupGripper, ArmEffect.getLoad]}
    match loadInfo? with
    | none => .error .loadReadFailed
    | some li => .ok {st with resp := st.resp ++ [("load", li)], valid := true}

/-- Branch for `set_speed`: `utils.AssertType[float64]`, positivity
check, then `x.speed = utils.DegToRad(speed)`. -/
def doSetSpeed (st : DoSt) : Option GoVal → Except DoErr DoSt
  | none => .ok st
  | some val =>
    match val with
    | .vF speed =>
      if qle speed q0 then .error .speedNonPositive
      else .ok {st with speed := degToRad speed, valid := true}
    | v => .error (.assertTypeNotFloat v)

/-- Branch for `set_acceleration`, symmetric to `set_speed`. -/
def doSetAccel (st : DoSt) : Option GoVal → Except DoErr DoSt
  | none => .ok st
  | some val =>
    match val with
    | .vF acceleration =>
      if qle acceleration q0 then .error .accelNonPositive
      else .ok {st with acceleration := degToRad acceleration, valid := true}
    | v => .error (.assertTypeNotFloat v)

/-- Branch for `grab_vacuum`: the value must assert to `bool`, then the
two-channel vacuum-grab command runs. -/
def doGrabVacuum (st : DoSt) : Option GoVal → Except DoErr DoSt
  | none => .ok st
  | some val =>
    match val with
    | .vB _ => .ok {st with effects := st.effects ++ [ArmEffect.grabVacuum], valid := true}
    | _ => .error .grabVacuumNotBool

/-- Branch for `open_vacuum`, symmetric to `grab_vacuum`. -/
def doOpenVacuum (st : DoSt) : Option GoVal → Except DoErr DoSt
  | none => .ok st
  | some val =>
    match val with
    | .vB _ => .ok {st with effects := st.effects ++ [ArmEffect.openVacuum], valid := true}
    | _ => .error .openVacuumNotBool

/-- Handler body over the seven probed lookups, in source order; if no
branch set `validCommand`, the call fails with "command not found". -/
def doCommandOn (speed0 accel0 : Q) (gripPos : Q) (loadInfo? : Option GoVal)
    (mg gg ld ss sa gv ov : Option GoVal) : Except DoErr DoSt :=
  match doMoveGripper ⟨[], speed0, accel0, [], false⟩ mg with
  | .error e => .error e
  | .ok st =>
  match doGetGripper gripPos st gg with
  | .error e => .error e
  | .ok st =>
  match doLoad loadInfo? st ld with
  | .error e => .error e
  | .ok st =>
  match doSetSpeed st ss with
  | .error e => .error e
  | .ok st =>
  match doSetAccel st sa with
  | .error e => .error e
  | .ok st =>
  match doGrabVacuum st gv with
  | .error e => .error e
  | .ok st =>
  match doOpenVacuum st ov with
  | .error e => .error e
  | .ok st => if st.valid then .ok st else .error .commandNotFound

/-- Command keys `DoCommand` recognizes. -/
def recognizedKeys : List String :=
  ["move_gripper", "get_gripper", "load", "set_speed", "set_acceleration",
   "grab_vacuum", "open_vacuum"]

/-- Embedding of `xArm.DoCommand` (`arm/xarm.go:322`): probe the seven
recognized keys of the command map in source order. -/
def doCommandM (speed0 accel0 : Q) (gripPos : Q) (loadInfo? : Option GoVal)
    (m : CmdMap) : Except DoErr DoSt :=
  doCommandOn speed0 accel0 gripPos loadInfo?
    (lookupKey m "move_gripper") (lookupKey m "get_gripper") (lookupKey m "load")
    (lookupKey m "set_speed") (lookupKey m "set_acceleration")
    (lookupKey m "grab_vacuum") (lookupKey m "open_vacuum")

/-! ## Concrete inputs used by the claim theorems and witnesses -/

/-- Start configuration `[0,0,0,0,0,0]` of `TestCreateRawJointSteps1`. -/
def c1Start : JointConf := [q0, q0, q0, q0, q0, q0]

/-- Waypoint `[1,0,0,0,0,1]` (radians) of `TestCreateRawJointSteps1`. -/
def c1Waypoint : JointConf := [q1, q0, q0, q0, q0, q1]

/-- Placeholder for `math.Sqrt`: the run of the `C1` scenario never
evaluates it (the short-move branch is untaken: the nominal 15
acceleration samples do not exceed 95% of the ≈95.5 naive step total),
so any function gives the same run. -/
def mathSqrtUnused : Q → Q := fun _ => q0

/-- Lower bound `minMoves = (1/x.speed)*x.moveHZ` asserted by
`TestCreateRawJointSteps1` for the `C1` scenario. -/
def c1MinMoves : Q := qmul (qdiv q1 (degToRad defaultSpeed)) defaultMoveHz

/-- Gripper polls for the `C6` witness scenario. -/
def c6poll : Nat → Int := fun i => [840, 500, 200, 100, 50, 20, 8].getD i 0

/-- Elapsed seconds observed by the timeout checks of the `C6` witness
scenario (10ms of sleep per iteration). -/
def c6elapsed : Nat → Q := fun i => ⟨(i : Int) + 1, 100⟩

/-- Healthy oracle for the `C7` witness: dial, deadline and write
succeed, and a complete 8-byte response (declared length 2: one status
param byte) arrives. -/
def c7oracle : WireOracle := ⟨true, true, true, [0, 1, 0, 2, 0, 2, 13, 0]⟩

/-- Arbitrary frame written by the `C7` witness call. -/
def c7cmd : WireCmd := ⟨1, 2, 13, []⟩

/-- Driver state with an open connection and a running, unbraked device
for the `C8` failing input. -/
def c8state : ArmSt := ⟨false, true, ⟨false, true, 0⟩⟩

/-- Command map with one recognized and one unrecognized key for the
`C9` counterexample. -/
def c9map : CmdMap := [("set_speed", .vF (qofInt 10)), ("bogus", .vB true)]

/-- Command map with only an unrecognized key for the `C9` witness. -/
def c9mapBogusOnly : CmdMap := [("bogus", .vB true)]

/-! ## Helper lemmas

Basic facts about `Q` used by the symbolic proofs. -/

theorem gcdF_zero_left (fuel b : Nat) (h : 0 < fuel) : gcdF fuel 0 b = b := by
  cases fuel with
  | zero => exact absurd h (by simp)
  | succ n => rfl

theorem qmk_zero (d : Int) : qmk 0 d = ⟨0, 1⟩ := by
  by_cases h : d = 0
  · simp [qmk, h]
  · have hd : d.natAbs ≠ 0 := Int.natAbs_ne_zero.mpr h
    simp only [qmk, h, if_false]
    have hg : gcdF gcdFuel (0 : Int).natAbs d.natAbs = d.natAbs := by
      have : (0 : Int).natAbs = 0 := rfl
      rw [this]
      exact gcdF_zero_left _ _ (by norm_num [gcdFuel])
    have hneg : (if d < 0 then -(0 : Int) else (0 : Int)) = 0 := by
      split <;> rfl
    simp only [hneg, Int.natAbs_zero] at *
    rw [hg]
    simp [Nat.div_self (Nat.pos_of_ne_zero hd)]

theorem qsub_self (x : Q) : qsub x x = ⟨0, 1⟩ := by
  unfold qsub
  have : x.n * (x.d : Int) - x.n * (x.d : Int) = 0 := by ring
  rw [this, qmk_zero]

theorem qabs_zero : qabs ⟨0, 1⟩ = ⟨0, 1⟩ := rfl

theorem qlt_irrefl_zero : qlt ⟨0, 1⟩ ⟨0, 1⟩ = false := rfl

/-- C2: after a status-checked response flags an error/warning, the
fetched `{error_code, warning_code}` report is classified exactly one
way: the collision code 0x1F is the Fatal-Manual collision failure;
otherwise a code present in the error table or warning table yields the
recoverable failure carrying the recognized messages; a report absent
from both tables yields the distinct Unknown failure. -/
theorem C2_error_classification (ec wc : Nat) :
    ((sendErrorPath ec wc).1 = SendFailure.collision ↔ ec = errCodeCollision)
    ∧ (ec ≠ errCodeCollision →
        ((lookupCode armBoxErrorMap ec).isSome = true ∨
         (lookupCode armBoxWarnMap wc).isSome = true) →
        (sendErrorPath ec wc).1 =
          SendFailure.device (.recognized ((lookupCode armBoxErrorMap ec).getD "")
            ((lookupCode armBoxWarnMap wc).getD "")))
    ∧ ((sendErrorPath ec wc).1 = SendFailure.device .unknownCode ↔
        (ec ≠ errCodeCollision ∧ lookupCode armBoxErrorMap ec = none ∧
         lookupCode armBoxWarnMap wc = none)) := by
  by_cases h : ec = errCodeCollision
  · subst h
    refine ⟨by simp [sendErrorPath], fun hne => absurd rfl hne, ?_⟩
    simp [sendErrorPath]
  · refine ⟨?_, ?_, ?_⟩
    · simp [sendErrorPath, h]
    · intro _ hsome
      simp only [sendErrorPath, h, if_false, decodeError]
      rcases hsome with hs | hs <;> simp [hs]
    · simp only [sendErrorPath, h, if_false, decodeError]
      rcases he : lookupCode armBoxErrorMap ec with _ | e <;>
        rcases hw : lookupCode armBoxWarnMap wc with _ | w <;>
          simp [h]

theorem C2_witness :
    (sendErrorPath 21 0).1 =
      SendFailure.device (.recognized ((lookupCode armBoxErrorMap 21).getD "")
        ((lookupCode armBoxWarnMap 0).getD "")) :=
  (C2_error_classification 21 0).2.1 (by decide) (Or.inl (by decide))

/-- C3 counterexample: error code 0x05 is absent from the error table
(and warning code 0 from the warning table), so the classification is
the Unknown failure — yet `send` still runs `resetErrorState`, which
the claim says never happens for Unknown. -/
theorem C3_counterexample :
    sendErrorPath 5 0 = (SendFailure.device .unknownCode, true) := by decide

/-- C3 amended: `send` runs the corrective `resetErrorState` (clear
error, clear warning, restore servo motion mode, reset motion state)
exactly when the fetched error code is not the collision code — for
both the Recoverable and the Unknown classification — and never for the
collision code. -/
theorem C3_reset_iff_noncollision (ec wc : Nat) :
    (sendErrorPath ec wc).2 = true ↔ ec ≠ errCodeCollision := by
  by_cases h : ec = errCodeCollision <;> simp [sendErrorPath, h]

theorem C3_witness : (sendErrorPath 5 0).2 = true :=
  (C3_reset_iff_noncollision 5 0).mpr (by decide)

/-- C8: `Close` on a driver with an open connection can never command
the braked/disabled state the claim (and its own doc comment) promises:
it stores the closed flag first, so its own `toggleBrake` send fails
fast with the "closed" error, the device state is untouched and the
socket is not even closed. -/
theorem C8_close_fails_closed (st : ArmSt) (h : st.conn = true) :
    (closeM st).2 = Except.error "closed"
      ∧ (closeM st).1.device = st.device
      ∧ (closeM st).1.conn = true := by
  simp [closeM, toggleBrakeM, sendCtl, h]

theorem C8_close_witness :
    (closeM c8state).2 = Except.error "closed"
      ∧ (closeM c8state).1.device = c8state.device
      ∧ (closeM c8state).1.conn = true :=
  C8_close_fails_closed c8state (by decide)

/-- Parsing a frame laid out as seven header bytes followed by the
params, when the length field matches `1 + |params|`, recovers the
big-endian fields. -/
theorem parse_cons7 (b0 b1 b2 b3 b4 b5 b6 : Nat) (params : List Nat)
    (h45 : b4 * 256 + b5 = 1 + params.length) (hfit : params.length + 1 < 65536) :
    parseResponse (b0 :: b1 :: b2 :: b3 :: b4 :: b5 :: b6 :: params) =
      some ⟨b0 * 256 + b1, b2 * 256 + b3, b6, params⟩ := by
  have hlen7 : ([b0, b1, b2, b3, b4, b5, b6] : List Nat).length = 7 := rfl
  have hread : readBytes 7 ([b0, b1, b2, b3, b4, b5, b6] ++ params) =
      some ([b0, b1, b2, b3, b4, b5, b6], params) := by
    unfold readBytes
    rw [List.length_append, hlen7, if_neg (by omega), List.take_left' hlen7,
      List.drop_left' hlen7]
  have hread2 : readBytes params.length params = some (params, []) := by
    unfold readBytes
    rw [if_neg (by omega), List.take_length, List.drop_length]
  show parseResponse ([b0, b1, b2, b3, b4, b5, b6] ++ params) = _
  unfold parseResponse
  rw [hread, Option.some_bind]
  show (readBytes ((b4 * 256 + b5 + 65535) % 65536) params).map _ = _
  rw [h45]
  have hneed : (1 + params.length + 65535) % 65536 = params.length := by omega
  rw [hneed, hread2, Option.map_some']
  rfl

/-- C4: encoding a command frame whose fields respect their wire types
(`tid`, `prot` are `uint16`, `reg` a byte) and whose params length plus
one fits in a `uint16`, then parsing the bytes with the response
parser, reproduces the transaction id, protocol id, register and params
exactly; the payload length is computed by the encoder, never supplied. -/
theorem C4_codec_roundtrip (c : WireCmd) (htid : c.tid < 65536)
    (hprot : c.prot < 65536) (hreg : c.reg < 256)
    (hlen : c.params.length + 1 < 65536) :
    parseResponse (cmdBytes c) = some c := by
  obtain ⟨tid, prot, reg, params⟩ := c
  simp only at htid hprot hreg hlen
  have hb : cmdBytes ⟨tid, prot, reg, params⟩ =
      (tid % 65536) / 256 :: tid % 256 :: (prot % 65536) / 256 :: prot % 256 ::
      (((1 + params.length) % 65536) % 65536) / 256 :: ((1 + params.length) % 65536) % 256 ::
      reg :: params := by
    simp [cmdBytes, u16be]
  rw [hb, parse_cons7 _ _ _ _ _ _ _ _ (by omega) (by omega)]
  simp only [Option.some.injEq, WireCmd.mk.injEq]
  exact ⟨by omega, by omega, trivial, trivial⟩

theorem C4_witness :
    parseResponse (cmdBytes ⟨7, 2, 13, [1, 2, 3]⟩) = some ⟨7, 2, 13, [1, 2, 3]⟩ :=
  C4_codec_roundtrip ⟨7, 2, 13, [1, 2, 3]⟩ (by decide) (by decide) (by decide) (by decide)

/-- Auxiliary characterization of the polling loop started at iteration
`i` with `old = oldAt poll i`: if the first loop-exit condition holds
`k` iterations later and not before, the loop returns the poll of that
iteration (goal hit or stall) or the timeout failure. -/
theorem goToPositionLoop_spec (goal : Int) (poll : Nat → Int) (elapsed : Nat → Q) :
    ∀ (k fuel i : Nat), k < fuel →
    (∀ j, j < k → gripStop goal poll elapsed (i + j) = false) →
    gripStop goal poll elapsed (i + k) = true →
    goToPositionLoop goal poll elapsed fuel i (oldAt poll i) =
      some (if (gripHit goal poll (i + k) || gripStall poll (i + k)) = true
            then Except.ok (poll (i + k))
            else Except.error (goal, elapsed (i + k))) := by
  intro k
  induction k with
  | zero =>
    intro fuel i hfuel _ hstop
    obtain ⟨f, rfl⟩ : ∃ f, fuel = f + 1 := ⟨fuel - 1, by omega⟩
    unfold goToPositionLoop
    simp only [Nat.add_zero] at hstop ⊢
    by_cases hhit : (poll i - goal).natAbs ≤ 6
    · simp [hhit, gripHit, gripStall]
    · by_cases hstall : 0 ≤ oldAt poll i ∧ (poll i - oldAt poll i).natAbs ≤ 3
      · simp only [hhit, if_false, hstall, if_true]
        simp [gripHit, hhit, gripStall, hstall.1, hstall.2]
      · have hH : gripHit goal poll i = false := by
          simp [gripHit, hhit]
        have hS : gripStall poll i = false := by
          simp only [gripStall, Bool.and_eq_false_iff]
          rcases Decidable.em (0 ≤ oldAt poll i) with h0 | h0
          · have : ¬ (poll i - oldAt poll i).natAbs ≤ 3 := fun hc => hstall ⟨h0, hc⟩
            exact Or.inr (by simp [this])
          · exact Or.inl (by simp [h0])
        have htime : gripTimeout elapsed i = true := by
          simpa [gripStop, hH, hS] using hstop
        have htq : qlt (qofInt 2) (elapsed i) = true := by
          simpa [gripTimeout] using htime
        simp only [hhit, if_false, hstall, htq, if_true]
        simp [hH, hS]
  | succ k ih =>
    intro fuel i hfuel hpre hstop
    obtain ⟨f, rfl⟩ : ∃ f, fuel = f + 1 := ⟨fuel - 1, by omega⟩
    have h0 : gripStop goal poll elapsed i = false := by
      simpa using hpre 0 (by omega)
    have hhit : ¬ (poll i - goal).natAbs ≤ 6 := by
      intro hc
      have : gripHit goal poll i = true := by simpa [gripHit] using hc
      simp [gripStop, this] at h0
    have hstall : ¬ (0 ≤ oldAt poll i ∧ (poll i - oldAt poll i).natAbs ≤ 3) := by
      intro hc
      have : gripStall poll i = true := by
        simp [gripStall, decide_eq_true hc.1, decide_eq_true hc.2]
      simp [gripStop, this] at h0
    have htime : qlt (qofInt 2) (elapsed i) = false := by
      have : gripTimeout elapsed i = false := by
        rcases hb : gripTimeout elapsed i with _ | _
        · rfl
        · simp [gripStop, hb] at h0
      simpa [gripTimeout] using this
    unfold goToPositionLoop
    simp only [hhit, if_false, hstall, htime]
    have hold : poll i = oldAt poll (i + 1) := rfl
    rw [hold]
    have := ih f (i + 1) (by omega)
      (fun j hj => by
        have := hpre (j + 1) (by omega)
        simpa [Nat.add_assoc, Nat.add_comm 1 j] using this)
      (by
        have : i + 1 + k = i + (k + 1) := by omega
        rw [this]
        exact hstop)
    have hidx : i + 1 + k = i + (k + 1) := by omega
    rw [hidx] at this
    exact this

/-- C6: the gripper `goToPosition` polling loop returns the last polled
position as soon as a poll is within 6 units of the goal or, from the
second poll onward, two consecutive polls differ by at most 3 units
(stall); when neither occurs before the 2-second deadline is exceeded
it returns the timeout failure naming the goal and the elapsed
duration. -/
theorem C6_gripper_polling (goal : Int) (poll : Nat → Int) (elapsed : Nat → Q)
    (fuel k : Nat) (hfuel : k < fuel)
    (hpre : ∀ j, j < k → gripStop goal poll elapsed j = false)
    (hstop : gripStop goal poll elapsed k = true) :
    goToPosition goal poll elapsed fuel =
      some (if (gripHit goal poll k || gripStall poll k) = true
            then Except.ok (poll k)
            else Except.error (goal, elapsed k)) := by
  have := goToPositionLoop_spec goal poll elapsed k fuel 0 hfuel
    (fun j hj => by simpa using hpre j hj) (by simpa using hstop)
  simpa [goToPosition, oldAt] using this

theorem C6_witness : goToPosition 2 c6poll c6elapsed 10 = some (Except.ok 8) := by
  have h := C6_gripper_polling 2 c6poll c6elapsed 10 6 (by omega)
    (by decide) (by decide)
  rw [h, if_pos (by decide)]
  rfl

set_option maxRecDepth 4000 in
/-- Facts about one `responseInLock` run: the error/success outcome
determines the connection state, the trace holds only read events, and
a short header (fewer than 7 bytes available) always errors. -/
theorem responseInLockM_facts (o : WireOracle) :
    (exceptErrored (responseInLockM o).res = true → (responseInLockM o).conn = false)
    ∧ (exceptErrored (responseInLockM o).res = false → (responseInLockM o).conn = true)
    ∧ ((responseInLockM o).trace = [WireEv.readHeader] ∨
       (responseInLockM o).trace = [WireEv.readHeader, WireEv.readParams])
    ∧ (o.incoming.length < 7 → exceptErrored (responseInLockM o).res = true) := by
  unfold responseInLockM
  cases h7 : readBytes 7 o.incoming with
  | none =>
    refine ⟨fun _ => rfl, fun h => ?_, Or.inl rfl, fun _ => rfl⟩
    simp [exceptErrored] at h
  | some pr =>
    obtain ⟨buf, rest⟩ := pr
    have hlong : ¬ o.incoming.length < 7 := by
      unfold readBytes at h7
      split at h7
      · simp at h7
      · omega
    dsimp only []
    cases hp : readBytes ((buf.getD 4 0 * 256 + buf.getD 5 0 + 65535) % 65536) rest with
    | none =>
      refine ⟨fun _ => rfl, fun h => ?_, Or.inr rfl, fun hs => absurd hs hlong⟩
      simp [exceptErrored] at h
    | some pr2 =>
      obtain ⟨params, left⟩ := pr2
      refine ⟨fun h => ?_, fun _ => rfl, Or.inr rfl, fun hs => absurd hs hlong⟩
      simp [exceptErrored] at h

/-- C7: for every wire call, a failure of the connect, deadline-set,
write, or either read leaves the connection closed and nulled and the
call returns an error; no primitive is retried within one call (the
trace holds at most one dial and one write); a call that finds the
connection nil dials before doing anything else (in particular before
the write), and a call that finds it live never dials; a fully
successful call leaves the connection live. -/
theorem C7_wire_failure_policy (connected : Bool) (o : WireOracle) (c : WireCmd) :
    (exceptErrored (writeBytesM connected o c).res = true →
      (writeBytesM connected o c).conn = false)
    ∧ (o.deadlineOK = false →
        exceptErrored (writeBytesM connected o c).res = true ∧
        (writeBytesM connected o c).conn = false)
    ∧ (o.writeOK = false →
        exceptErrored (writeBytesM connected o c).res = true ∧
        (writeBytesM connected o c).conn = false)
    ∧ (o.incoming.length < 7 →
        exceptErrored (writeBytesM connected o c).res = true ∧
        (writeBytesM connected o c).conn = false)
    ∧ ((writeBytesM connected o c).trace.count WireEv.dial ≤ 1 ∧
       (writeBytesM connected o c).trace.count WireEv.write ≤ 1)
    ∧ (connected = false →
        (writeBytesM connected o c).trace.head? = some WireEv.dial)
    ∧ (connected = true → WireEv.dial ∉ (writeBytesM connected o c).trace)
    ∧ (exceptErrored (writeBytesM connected o c).res = false →
        (writeBytesM connected o c).conn = true) := by
  obtain ⟨hre, hro, htr, hrs⟩ := responseInLockM_facts o
  have hshortE : o.incoming.length < 7 →
      exceptErrored (responseInLockM o).res = true ∧ (responseInLockM o).conn = false :=
    fun hs => ⟨hrs hs, hre (hrs hs)⟩
  unfold writeBytesM
  rcases connected with _ | _ <;> rcases hd : o.dialOK with _ | _ <;>
    rcases hdl : o.deadlineOK with _ | _ <;> rcases hw : o.writeOK with _ | _ <;>
      simp only [Bool.not_eq_true, Bool.false_eq_true, Bool.true_eq_false, false_and,
        true_and, and_true, and_false, if_true, if_false, ite_true, ite_false,
        not_false_eq_true, not_true_eq_false]
  case false.true.true.true =>
    refine ⟨hre, fun h => by simp [hdl] at h, fun h => by simp [hw] at h, hshortE,
      ?_, fun _ => rfl, fun h => by simp at h, hro⟩
    rcases htr with htr | htr <;>
      simp [htr, List.count_append, List.count_cons]
  case true.true.true.true =>
    refine ⟨hre, fun h => by simp [hdl] at h, fun h => by simp [hw] at h, hshortE,
      ?_, fun h => by simp at h, fun _ => ?_, hro⟩
    · rcases htr with htr | htr <;>
        simp [htr, List.count_append, List.count_cons]
    · rcases htr with htr | htr <;> simp [htr]
  case true.false.true.true =>
    refine ⟨hre, fun h => by simp [hdl] at h, fun h => by simp [hw] at h, hshortE,
      ?_, fun h => by simp at h, fun _ => ?_, hro⟩
    · rcases htr with htr | htr <;>
        simp [htr, List.count_append, List.count_cons]
    · rcases htr with htr | htr <;> simp [htr]
  all_goals
    simp [exceptErrored]

theorem C7_witness :
    (writeBytesM false c7oracle c7cmd).trace.head? = some WireEv.dial :=
  (C7_wire_failure_policy false c7oracle c7cmd).2.2.2.2.2.1 rfl

/-- Helper for C9: each branch handler leaves the state unchanged when
its key is absent. -/
theorem doBranch_none (st : DoSt) (gp : Q) (li : Option GoVal) :
    doMoveGripper st none = .ok st ∧ doGetGripper gp st none = .ok st ∧
    doLoad li st none = .ok st ∧ doSetSpeed st none = .ok st ∧
    doSetAccel st none = .ok st ∧ doGrabVacuum st none = .ok st ∧
    doOpenVacuum st none = .ok st :=
  ⟨rfl, rfl, rfl, rfl, rfl, rfl, rfl⟩

/-- Helper for C9: a branch that succeeds reports validity exactly when
its key was present or validity already held, and a branch that fails
never fails with the command-not-found error. -/
theorem doMoveGripper_spec (st : DoSt) (o : Option GoVal) :
    (∀ st2, doMoveGripper st o = .ok st2 → st2.valid = (st.valid || o.isSome))
    ∧ (∀ e, doMoveGripper st o = .error e → e ≠ DoErr.commandNotFound) := by
  rcases o with _ | v
  · exact ⟨fun st2 h => by cases h; simp, fun e h => by cases h⟩
  · rcases v with q | b | s | _ <;>
      simp only [doMoveGripper] <;>
      constructor <;> intro x h
    · split at h
      · cases h
      · cases h; simp
    · split at h
      · cases h; simp
      · cases h
    all_goals first
      | (cases h; simp)
      | (cases h)

theorem doGetGripper_spec (gp : Q) (st : DoSt) (o : Option GoVal) :
    (∀ st2, doGetGripper gp st o = .ok st2 → st2.valid = (st.valid || o.isSome))
    ∧ (∀ e, doGetGripper gp st o = .error e → e ≠ DoErr.commandNotFound) := by
  rcases o with _ | v
  · exact ⟨fun st2 h => by cases h; simp, fun e h => by cases h⟩
  · exact ⟨fun st2 h => by cases h; simp, fun e h => by cases h⟩

theorem doLoad_spec (li : Option GoVal) (st : DoSt) (o : Option GoVal) :
    (∀ st2, doLoad li st o = .ok st2 → st2.valid = (st.valid || o.isSome))
    ∧ (∀ e, doLoad li st o = .error e → e ≠ DoErr.commandNotFound) := by
  rcases o with _ | v
  · exact ⟨fun st2 h => by cases h; simp, fun e h => by cases h⟩
  · rcases li with _ | l
    · exact ⟨fun st2 h => by simp [doLoad] at h, fun e h => by cases h; simp⟩
    · exact ⟨fun st2 h => by cases h; simp, fun e h => by cases h⟩

theorem doSetSpeed_spec (st : DoSt) (o : Option GoVal) :
    (∀ st2, doSetSpeed st o = .ok st2 → st2.valid = (st.valid || o.isSome))
    ∧ (∀ e, doSetSpeed st o = .error e → e ≠ DoErr.commandNotFound) := by
  rcases o with _ | v
  · exact ⟨fun st2 h => by cases h; simp, fun e h => by cases h⟩
  · rcases v with q | b | s | _ <;> simp only [doSetSpeed] <;> constructor <;> intro x h
    · split at h
      · cases h
      · cases h; simp
    · split at h
      · cases h; simp
      · cases h
    all_goals first
      | (cases h; simp)
      | (cases h)

theorem doSetAccel_spec (st : DoSt) (o : Option GoVal) :
    (∀ st2, doSetAccel st o = .ok st2 → st2.valid = (st.valid || o.isSome))
    ∧ (∀ e, doSetAccel st o = .error e → e ≠ DoErr.commandNotFound) := by
  rcases o with _ | v
  · exact ⟨fun st2 h => by cases h; simp, fun e h => by cases h⟩
  · rcases v with q | b | s | _ <;> simp only [doSetAccel] <;> constructor <;> intro x h
    · split at h
      · cases h
      · cases h; simp
    · split at h
      · cases h; simp
      · cases h
    all_goals first
      | (cases h; simp)
      | (cases h)

theorem doGrabVacuum_spec (st : DoSt) (o : Option GoVal) :
    (∀ st2, doGrabVacuum st o = .ok st2 → st2.valid = (st.valid || o.isSome))
    ∧ (∀ e, doGrabVacuum st o = .error e → e ≠ DoErr.commandNotFound) := by
  rcases o with _ | v
  · exact ⟨fun st2 h => by cases h; simp, fun e h => by cases h⟩
  · rcases v with q | b | s | _ <;> constructor <;> intro x h <;>
      first
        | (cases h; simp)
        | (cases h)

theorem doOpenVacuum_spec (st : DoSt) (o : Option GoVal) :
    (∀ st2, doOpenVacuum st o = .ok st2 → st2.valid = (st.valid || o.isSome))
    ∧ (∀ e, doOpenVacuum st o = .error e → e ≠ DoErr.commandNotFound) := by
  rcases o with _ | v
  · exact ⟨fun st2 h => by cases h; simp, fun e h => by cases h⟩
  · rcases v with q | b | s | _ <;> constructor <;> intro x h <;>
      first
        | (cases h; simp)
        | (cases h)

/-- Characterization of the "command not found" rejection: it happens
exactly when none of the seven recognized keys is present. -/
theorem doCommandOn_notFound (s a g : Q) (li : Option GoVal)
    (mg gg ld ss sa gv ov : Option GoVal) :
    doCommandOn s a g li mg gg ld ss sa gv ov = .error .commandNotFound ↔
      (mg = none ∧ gg = none ∧ ld = none ∧ ss = none ∧ sa = none ∧
       gv = none ∧ ov = none) := by
  constructor
  · intro h
    unfold doCommandOn at h
    rcases h1 : doMoveGripper ⟨[], s, a, [], false⟩ mg with e1 | st1 <;> rw [h1] at h <;> simp only [] at h
    · simp only [Except.error.injEq] at h
      exact absurd h ((doMoveGripper_spec _ _).2 e1 h1)
    rcases h2 : doGetGripper g st1 gg with e2 | st2 <;> rw [h2] at h <;> simp only [] at h
    · simp only [Except.error.injEq] at h
      exact absurd h ((doGetGripper_spec _ _ _).2 e2 h2)
    rcases h3 : doLoad li st2 ld with e3 | st3 <;> rw [h3] at h <;> simp only [] at h
    · simp only [Except.error.injEq] at h
      exact absurd h ((doLoad_spec _ _ _).2 e3 h3)
    rcases h4 : doSetSpeed st3 ss with e4 | st4 <;> rw [h4] at h <;> simp only [] at h
    · simp only [Except.error.injEq] at h
      exact absurd h ((doSetSpeed_spec _ _).2 e4 h4)
    rcases h5 : doSetAccel st4 sa with e5 | st5 <;> rw [h5] at h <;> simp only [] at h
    · simp only [Except.error.injEq] at h
      exact absurd h ((doSetAccel_spec _ _).2 e5 h5)
    rcases h6 : doGrabVacuum st5 gv with e6 | st6 <;> rw [h6] at h <;> simp only [] at h
    · simp only [Except.error.injEq] at h
      exact absurd h ((doGrabVacuum_spec _ _).2 e6 h6)
    rcases h7 : doOpenVacuum st6 ov with e7 | st7 <;> rw [h7] at h <;> simp only [] at h
    · simp only [Except.error.injEq] at h
      exact absurd h ((doOpenVacuum_spec _ _).2 e7 h7)
    have v1 := (doMoveGripper_spec _ _).1 st1 h1
    have v2 := (doGetGripper_spec _ _ _).1 st2 h2
    have v3 := (doLoad_spec _ _ _).1 st3 h3
    have v4 := (doSetSpeed_spec _ _).1 st4 h4
    have v5 := (doSetAccel_spec _ _).1 st5 h5
    have v6 := (doGrabVacuum_spec _ _).1 st6 h6
    have v7 := (doOpenVacuum_spec _ _).1 st7 h7
    have hvalid : st7.valid = false := by
      by_contra hne
      have : st7.valid = true := by
        rcases hb : st7.valid with _ | _
        · exact absurd hb hne
        · rfl
      rw [if_pos this] at h
      cases h
    rw [v7, v6, v5, v4, v3, v2, v1] at hvalid
    simp only [Bool.false_or, Bool.or_eq_false_iff] at hvalid
    obtain ⟨⟨⟨⟨⟨⟨hm, hg⟩, hl⟩, hs⟩, ha⟩, hv⟩, ho⟩ := hvalid
    exact ⟨Option.not_isSome_iff_eq_none.mp (by simp [hm]),
      Option.not_isSome_iff_eq_none.mp (by simp [hg]),
      Option.not_isSome_iff_eq_none.mp (by simp [hl]),
      Option.not_isSome_iff_eq_none.mp (by simp [hs]),
      Option.not_isSome_iff_eq_none.mp (by simp [ha]),
      Option.not_isSome_iff_eq_none.mp (by simp [hv]),
      Option.not_isSome_iff_eq_none.mp (by simp [ho])⟩
  · rintro ⟨rfl, rfl, rfl, rfl, rfl, rfl, rfl⟩
    rfl

/-- Filtering a command map to its recognized keys does not change the
lookup of a recognized key. -/
theorem lookupKey_filter (m : CmdMap) (k : String)
    (hk : recognizedKeys.contains k = true) :
    lookupKey (m.filter (fun p => recognizedKeys.contains p.1)) k = lookupKey m k := by
  induction m with
  | nil => rfl
  | cons p t ih =>
    by_cases hpk : (p.1 == k) = true
    · have hkeep : recognizedKeys.contains p.1 = true := by
        rw [eq_of_beq hpk]; exact hk
      simp only [lookupKey, List.filter, List.find?, hkeep, hpk]
    · have hpk' : (p.1 == k) = false := by
        rcases hb : (p.1 == k) with _ | _
        · rfl
        · exact absurd hb hpk
      rcases hkeep : recognizedKeys.contains p.1 with _ | _ <;>
        simp only [lookupKey, List.filter, List.find?, hkeep, hpk'] at ih ⊢ <;>
        exact ih

/-- C9 counterexample: a command map holding the recognized `set_speed`
key and the unrecognized `bogus` key is not rejected — the call
succeeds, applies the new speed, and silently ignores `bogus`. -/
theorem C9_counterexample :
    doCommandM q1 q1 q0 none c9map =
      .ok ⟨[], degToRad (qofInt 10), q1, [], true⟩ := rfl

/-- C9 amended: unrecognized command keys are ignored rather than
rejected: the result of `DoCommand` depends only on the recognized
keys of the map, and the call is rejected (with "command not found")
exactly when the map contains no recognized key at all — not whenever
some unrecognized key is present. -/
theorem C9_unrecognized_keys (s a g : Q) (li : Option GoVal) (m : CmdMap) :
    doCommandM s a g li m =
      doCommandM s a g li (m.filter (fun p => recognizedKeys.contains p.1))
    ∧ (doCommandM s a g li m = .error .commandNotFound ↔
        ∀ k ∈ recognizedKeys, lookupKey m k = none) := by
  constructor
  · unfold doCommandM
    rw [lookupKey_filter m "move_gripper" (by decide),
      lookupKey_filter m "get_gripper" (by decide),
      lookupKey_filter m "load" (by decide),
      lookupKey_filter m "set_speed" (by decide),
      lookupKey_filter m "set_acceleration" (by decide),
      lookupKey_filter m "grab_vacuum" (by decide),
      lookupKey_filter m "open_vacuum" (by decide)]
  · rw [doCommandM, doCommandOn_notFound]
    constructor
    · rintro ⟨h1, h2, h3, h4, h5, h6, h7⟩ k hk
      simp only [recognizedKeys, List.mem_cons, List.not_mem_nil, or_false] at hk
      rcases hk with rfl | rfl | rfl | rfl | rfl | rfl | rfl <;> assumption
    · intro h
      exact ⟨h _ (by decide), h _ (by decide), h _ (by decide), h _ (by decide),
        h _ (by decide), h _ (by decide), h _ (by decide)⟩

theorem C9_witness : doCommandM q1 q1 q0 none c9mapBogusOnly = .error .commandNotFound :=
  (C9_unrecognized_keys q1 q1 q0 none c9mapBogusOnly).2.mpr (by decide)

/-- C10: a `DoCommand` invocation carrying only `move_gripper` errors
exactly when the supplied value is not a `float64` or lies outside the
closed interval `[-10, 850]` (the error text's 0-to-840 range does not
match the check); every accepted value — negative ones included — is
converted by Go's `uint32(position)` cast and sent as the gripper
position after the setup commands. -/
theorem C10_move_gripper (s a g : Q) (li : Option GoVal) (v : GoVal) :
    ((∃ e, doCommandM s a g li [("move_gripper", v)] = .error e) ↔
      ¬ ∃ q, v = GoVal.vF q ∧ qlt q (qofInt (-10)) = false ∧ qlt (qofInt 850) q = false)
    ∧ (∀ q, v = GoVal.vF q → qlt q (qofInt (-10)) = false → qlt (qofInt 850) q = false →
        doCommandM s a g li [("move_gripper", v)] =
          .ok ⟨[], s, a, [ArmEffect.setupGripper,
                          ArmEffect.setGripperPosition (goU32 q)], true⟩)
    ∧ ((¬ ∃ q, v = GoVal.vF q ∧ qlt q (qofInt (-10)) = false ∧ qlt (qofInt 850) q = false) →
        doCommandM s a g li [("move_gripper", v)] =
          .error (.moveGripperInvalid v)) := by
  have hlk : lookupKey [("move_gripper", v)] "move_gripper" = some v := rfl
  have hrest : doCommandM s a g li [("move_gripper", v)] =
      match doMoveGripper ⟨[], s, a, [], false⟩ (some v) with
      | .error e => .error e
      | .ok st => if st.valid = true then .ok st else .error .commandNotFound := by
    unfold doCommandM doCommandOn
    rw [hlk]
    rcases hmv : doMoveGripper ⟨[], s, a, [], false⟩ (some v) with e | st
    · rfl
    · rfl
  rcases v with q | b | sv | _
  · by_cases hlo : qlt q (qofInt (-10)) = true
    · have hmv : doMoveGripper ⟨[], s, a, [], false⟩ (some (GoVal.vF q)) =
          .error (.moveGripperInvalid (GoVal.vF q)) := by
        simp [doMoveGripper, hlo]
      rw [hrest, hmv]
      refine ⟨⟨fun _ => ?_, fun _ => ⟨_, rfl⟩⟩, fun q2 hq2 hl2 _ => ?_, fun _ => rfl⟩
      · rintro ⟨q2, hq2, hl2, hh2⟩
        obtain rfl : q = q2 := by cases hq2; rfl
        rw [hlo] at hl2
        cases hl2
      · obtain rfl : q = q2 := by cases hq2; rfl
        rw [hlo] at hl2
        cases hl2
    · have hlo' : qlt q (qofInt (-10)) = false := by
        rcases hb : qlt q (qofInt (-10)) with _ | _
        · rfl
        · exact absurd hb hlo
      by_cases hhi : qlt (qofInt 850) q = true
      · have hmv : doMoveGripper ⟨[], s, a, [], false⟩ (some (GoVal.vF q)) =
            .error (.moveGripperInvalid (GoVal.vF q)) := by
          simp [doMoveGripper, hlo', hhi]
        rw [hrest, hmv]
        refine ⟨⟨fun _ => ?_, fun _ => ⟨_, rfl⟩⟩, fun q2 hq2 hl2 hh2 => ?_, fun _ => rfl⟩
        · rintro ⟨q2, hq2, hl2, hh2⟩
          obtain rfl : q = q2 := by cases hq2; rfl
          rw [hhi] at hh2
          cases hh2
        · obtain rfl : q = q2 := by cases hq2; rfl
          rw [hhi] at hh2
          cases hh2
      · have hhi' : qlt (qofInt 850) q = false := by
          rcases hb : qlt (qofInt 850) q with _ | _
          · rfl
          · exact absurd hb hhi
        have hmv : doMoveGripper ⟨[], s, a, [], false⟩ (some (GoVal.vF q)) =
            .ok ⟨[], s, a, [ArmEffect.setupGripper,
                            ArmEffect.setGripperPosition (goU32 q)], true⟩ := by
          simp [doMoveGripper, hlo', hhi']
        rw [hrest, hmv]
        refine ⟨⟨?_, fun hne => absurd ⟨q, rfl, hlo', hhi'⟩ hne⟩,
          fun q2 hq2 _ _ => ?_, fun hne => absurd ⟨q, rfl, hlo', hhi'⟩ hne⟩
        · rintro ⟨e, he⟩
          simp at he
        · obtain rfl : q = q2 := by cases hq2; rfl
          rfl
  · rw [hrest]
    refine ⟨⟨fun _ => ?_, fun _ => ⟨_, rfl⟩⟩,
      ⟨fun q2 hq2 _ _ => GoVal.noConfusion hq2, fun _ => rfl⟩⟩
    rintro ⟨q2, hq2, -, -⟩
    exact GoVal.noConfusion hq2
  · rw [hrest]
    refine ⟨⟨fun _ => ?_, fun _ => ⟨_, rfl⟩⟩,
      ⟨fun q2 hq2 _ _ => GoVal.noConfusion hq2, fun _ => rfl⟩⟩
    rintro ⟨q2, hq2, -, -⟩
    exact GoVal.noConfusion hq2
  · rw [hrest]
    refine ⟨⟨fun _ => ?_, fun _ => ⟨_, rfl⟩⟩,
      ⟨fun q2 hq2 _ _ => GoVal.noConfusion hq2, fun _ => rfl⟩⟩
    rintro ⟨q2, hq2, -, -⟩
    exact GoVal.noConfusion hq2

theorem C10_witness :
    doCommandM q1 q1 q0 none [("move_gripper", GoVal.vF (qofInt (-5)))] =
      .ok ⟨[], q1, q1, [ArmEffect.setupGripper,
                        ArmEffect.setGripperPosition 4294967291], true⟩ := by
  have h := (C10_move_gripper q1 q1 q0 none (GoVal.vF (qofInt (-5)))).2.1
    (qofInt (-5)) rfl (by decide) (by decide)
  rw [h]
  rfl

set_option maxRecDepth 1000000 in
/-- C1: in the scenario of `TestCreateRawJointSteps1` — start
`[0,0,0,0,0,0]`, one waypoint `[1,0,0,0,0,1]`, the default speed
(`maxSpeed/3` = 60 deg/s) and default acceleration (`maxAccel/3`
≈ 381.67 deg/s²) converted to rad/s, 100Hz — generation succeeds with
110 steps, strictly between `minMoves = (1/speed)*100 ≈ 95.49` and
`minMoves + 20 ≈ 115.49`: the trapezoidal ramps at the default
acceleration add ≈15 steps on each side minus the cruise they
replace. -/
theorem C1_trajectory_step_count :
    (createRawJointSteps mathSqrtUnused (degToRad defaultSpeed) (degToRad defaultAccel)
        defaultMoveHz c1Start [c1Waypoint] 1000).map List.length = some 110
    ∧ qlt c1MinMoves (qofInt 110) = true
    ∧ qlt (qofInt 110) (qadd c1MinMoves (qofInt 20)) = true := by decide

theorem qabs_q0 : qabs q0 = q0 := rfl

theorem qadd_q0_q0 : qadd q0 q0 = q0 := by decide

theorem qdiv_zero_left (y : Q) : qdiv q0 y = q0 := by
  show qmk ((0 : Int) * (y.d : Int)) ((1 : Nat) * y.n) = q0
  rw [zero_mul, qmk_zero]
  rfl

theorem qmul_zero_left (y : Q) : qmul q0 y = q0 := by
  show qmk ((0 : Int) * y.n) (((1 : Nat) : Int) * (y.d : Int)) = q0
  rw [zero_mul, qmk_zero]
  rfl

theorem floatMaxDiff_self (x : JointConf) : floatMaxDiff x x = q0 := by
  unfold floatMaxDiff
  induction x with
  | nil => rfl
  | cons a t ih =>
    have hzip : (a :: t).zip (a :: t) = (a, a) :: t.zip t := rfl
    rw [hzip, List.foldl_cons]
    have hstep : (let diff := qabs (qsub (a, a).1 (a, a).2)
        if qlt q0 diff = true then diff else q0) = q0 := by
      show (if qlt q0 (qabs (qsub a a)) = true then qabs (qsub a a) else q0) = q0
      rw [qsub_self]
      rfl
    rw [hstep]
    exact ih

theorem curveInner_no_move (speed iwStep moveHZ : Q) (stopVel? : Option Q)
    (toInputs : JointConf) (fuel : Nat) (acc : CurveAcc)
    (lastInputs runningFrom : JointConf) (hfuel : 0 < fuel)
    (hdiff : floatMaxDiff runningFrom toInputs = q0) :
    curveInner speed iwStep moveHZ stopVel? toInputs fuel acc lastInputs runningFrom =
      some (acc, false) := by
  obtain ⟨f, rfl⟩ : ∃ f, fuel = f + 1 := ⟨fuel - 1, by omega⟩
  unfold curveInner
  rw [hdiff]
  rfl

theorem curveOuter_all_eq (speed iwStep moveHZ : Q) (stopVel? : Option Q) (fuel : Nat)
    (c : JointConf) (hfuel : 0 < fuel) :
    ∀ (segs : List JointConf) (i : Nat) (acc : CurveAcc),
    (∀ w ∈ segs, w = c) →
    curveOuter speed iwStep moveHZ stopVel? fuel segs i acc c c =
      some (i + segs.length, acc) := by
  intro segs
  induction segs with
  | nil => intro i acc _; simp [curveOuter]
  | cons w rest ih =>
    intro i acc hall
    have hw : w = c := hall w (by simp)
    unfold curveOuter
    rw [hw]
    rw [curveInner_no_move speed iwStep moveHZ stopVel? c fuel acc c c hfuel
      (floatMaxDiff_self c)]
    dsimp only []
    rw [ih (i + 1) acc (fun x hx => hall x (List.mem_cons_of_mem _ hx))]
    simp only [Option.some.injEq, Prod.mk.injEq, List.length_cons]
    exact ⟨by omega, trivial⟩

theorem stepTotals_all_eq (speed moveHZ : Q) (c : JointConf) :
    ∀ (ws : List JointConf), (∀ w ∈ ws, w = c) →
    stepTotals speed moveHZ ws c (q0, q0) = (q0, q0) := by
  intro ws
  induction ws with
  | nil => intro _; rfl
  | cons w rest ih =>
    intro hall
    have hw : w = c := hall w (by simp)
    subst hw
    unfold stepTotals
    dsimp only []
    rw [floatMaxDiff_self, qabs_q0, qdiv_zero_left, qmul_zero_left, qadd_q0_q0]
    exact ih (fun x hx => hall x (by simp [hx]))

theorem buildAccel_neg (accelStop : Int) (ds : List JointConf)
    (hneg : accelStop < 0) :
    ∀ (ws : List JointConf) (i : Nat),
    buildAccelInputSteps accelStop ds ws i = some ws := by
  intro ws
  induction ws with
  | nil => intro i; rfl
  | cons s rest ih =>
    intro i
    unfold buildAccelInputSteps
    rw [if_neg (by omega)]
    rw [ih (i + 1)]
    rfl

theorem headD_all_eq (l : List JointConf) (c d : JointConf)
    (hall : ∀ w ∈ l, w = c) : (l ++ [c]).headD d = c := by
  cases l with
  | nil => rfl
  | cons a t => exact hall a (by simp)

theorem accelCurve_all_eq (speed iwStep moveHZ a0 : Q) (c : JointConf)
    (segs : List JointConf) (stopVel? : Option Q) (fuel : Nat) (hfuel : 0 < fuel)
    (hall : ∀ w ∈ segs, w = c) :
    accelCurve speed iwStep moveHZ a0 c segs stopVel? fuel =
      some (segs.length, ⟨a0, a0, []⟩) := by
  unfold accelCurve
  rw [curveOuter_all_eq speed iwStep moveHZ stopVel? fuel c hfuel segs 0 ⟨a0, a0, []⟩ hall]
  simp

/-- C5: a trajectory request whose waypoints all equal the start
configuration (zero displacement everywhere) succeeds — no error for
any speed, acceleration, or sample rate — and produces the empty step
sequence. -/
theorem C5_zero_displacement (sqrtFn : Q → Q) (speed acceleration moveHZ : Q)
    (startInputs : JointConf) (inputSteps : List JointConf) (fuel : Nat)
    (hfuel : 0 < fuel) (hall : ∀ w ∈ inputSteps, w = startInputs) :
    createRawJointSteps sqrtFn speed acceleration moveHZ startInputs inputSteps fuel =
      some [] := by
  have hrev : ∀ w ∈ inputSteps.reverse, w = startInputs := fun w hw =>
    hall w (List.mem_reverse.mp hw)
  have hrevall : ∀ w ∈ inputSteps.reverse ++ [startInputs], w = startInputs := by
    intro w hw
    rcases List.mem_append.mp hw with h | h
    · exact hrev w h
    · simpa using h
  unfold createRawJointSteps
  dsimp only []
  rw [stepTotals_all_eq speed moveHZ startInputs inputSteps hall]
  dsimp only []
  rw [headD_all_eq inputSteps.reverse startInputs startInputs hrev]
  rw [accelCurve_all_eq speed (qdiv interwaypointAccel moveHZ) moveHZ
    (qdiv acceleration moveHZ) startInputs (inputSteps.reverse ++ [startInputs]) _ fuel
    hfuel hrevall]
  dsimp only []
  rw [show (inputSteps.reverse ++ [startInputs]).length = inputSteps.length + 1 from by
    simp]
  rw [buildAccel_neg _ _ (by push_cast; omega) inputSteps 0]
  dsimp only []
  rw [accelCurve_all_eq speed (qdiv interwaypointAccel moveHZ) moveHZ
    (qdiv acceleration moveHZ) startInputs inputSteps _ fuel hfuel hall]
  rfl

theorem C5_witness :
    createRawJointSteps (fun q => q) q1 q1 ⟨100, 1⟩ [⟨1, 2⟩] [[⟨1, 2⟩], [⟨1, 2⟩]] 5 =
      some [] :=
  C5_zero_displacement (fun q => q) q1 q1 ⟨100, 1⟩ [⟨1, 2⟩] [[⟨1, 2⟩], [⟨1, 2⟩]] 5
    (by omega) (by decide)
